import Mathlib

/-!
# Verification of the Cppython interpreter core

A shallow embedding of the Cppython interpreter (tokenizer, recursive-descent
parser, value model, tree-walking evaluator) in Lean 4, with theorems settling
the specification claims.

Sources embedded:
* `src/src/lexer.cpp` — the tokenizer implementation present in the tree.
  The enum of the current lexer header (`src/unnamed/part_001`) additionally
  carries `F_STRING`, `WITH`, `AS`; the implementation matching that header is
  not in the tree, so its keyword table is modelled from the spec where a claim
  needs it (clearly marked below).
* `src/unnamed/part_005` (first copy) — the current parser.
* `src/unnamed/part_003` — the current executor, plus the `Value` model from
  the second copy of the executor header in `src/unnamed/part_000`.

Modelling conventions:
* C++ `double` is modelled by `Dbl`, an unnormalized fraction of integers.
  Every arithmetic step exercised by the claims stays exactly representable
  (small integers), where IEEE doubles and exact fractions agree.  Rounding,
  infinities and NaN are not modelled; no claim depends on them.
* C++ exceptions become `Except`; `catch` blocks become matches on `.error`.
* Recursion that is bounded only by the call stack in C++ (the evaluator can
  recurse through `eval`/`exec` without bound) is given an explicit fuel
  parameter; exhausted fuel is a distinguished outcome that no modelled
  `catch` intercepts, mirroring a stack overflow.
* I/O is modelled by explicit state: an output string, a list of pending
  input lines, and a map from file names to contents.
-/

/-! ## Character classes (C `<cctype>` on ASCII) -/

def isSpaceC (c : Char) : Bool :=
  c = ' ' || c = '\t' || c = '\n' || c = '\x0b' || c = '\x0c' || c = '\r'

def isIdentChar (c : Char) : Bool :=
  c.isAlphanum || c = '_'

/-! ## `Dbl`: the model of C++ `double`

An unnormalized fraction `num / den`.  All constructions used by the
interpreter keep `den` positive except division by zero, which produces
`den = 0` (standing in for the IEEE infinity/NaN the C++ code produces;
no claim touches that corner). -/

structure Dbl where
  num : Int
  den : Int
deriving DecidableEq, Repr

def Dbl.ofInt (n : Int) : Dbl := ⟨n, 1⟩

def Dbl.add (a b : Dbl) : Dbl := ⟨a.num * b.den + b.num * a.den, a.den * b.den⟩

def Dbl.sub (a b : Dbl) : Dbl := ⟨a.num * b.den - b.num * a.den, a.den * b.den⟩

def Dbl.mul (a b : Dbl) : Dbl := ⟨a.num * b.num, a.den * b.den⟩

/-- Restore a positive denominator after a division. -/
def Dbl.fix (d : Dbl) : Dbl := if d.den < 0 then ⟨-d.num, -d.den⟩ else d

def Dbl.div (a b : Dbl) : Dbl := Dbl.fix ⟨a.num * b.den, a.den * b.num⟩

/-- Truncation toward zero, the behavior of a C cast from `double` to an
integer type (`Int.tdiv` is T-division). -/
def Dbl.trunc (d : Dbl) : Int := d.num.tdiv d.den

/-- `std::fmod`: `x - trunc(x/y)*y`.  `fmod(x, 0)` is NaN in C++; modelled as
the zero-denominator marker. -/
def Dbl.fmod (a b : Dbl) : Dbl :=
  if b.num = 0 then ⟨0, 0⟩
  else Dbl.sub a (Dbl.mul (Dbl.ofInt ((Dbl.div a b).trunc)) b)

/-- `number == (long long)number` in `Value::toString`. -/
def Dbl.isIntegral (d : Dbl) : Bool := d.den ≠ 0 && d.num % d.den = 0

/-- Rendering of a number as in `Value::toString`: exactly integral values
print as an integer literal.  The default `ostringstream` decimal rendering of
a non-integral `double` is floating-point formatting, which is not modelled;
the fraction itself is printed instead.  No claim exercises that branch. -/
def Dbl.render (d : Dbl) : String :=
  if d.isIntegral then toString (d.num.tdiv d.den)
  else toString d.num ++ "/" ++ toString d.den

/-! ## `std::stod`

`std::stod` parses a maximal numeric literal at the front of the string
(after optional whitespace and sign) and throws if no conversion could be
performed.  `none` models the thrown `std::invalid_argument`.  Hexadecimal,
`inf`/`nan` forms and the out-of-range overflow are not modelled; no claim
exercises them. -/

def digitsToNat (cs : List Char) : Nat :=
  cs.foldl (fun a c => a * 10 + (c.toNat - 48)) 0

def stodList (cs : List Char) : Option Dbl :=
  let cs₁ := cs.dropWhile (fun c => isSpaceC c)
  let p : Int × List Char :=
    match cs₁ with
    | '+' :: t => (1, t)
    | '-' :: t => (-1, t)
    | _ => (1, cs₁)
  let sgn := p.1
  let cs₂ := p.2
  let intd := cs₂.takeWhile Char.isDigit
  let cs₃ := cs₂.dropWhile Char.isDigit
  let q : List Char × List Char :=
    match cs₃ with
    | '.' :: t => (t.takeWhile Char.isDigit, t.dropWhile Char.isDigit)
    | _ => ([], cs₃)
  let frac := q.1
  let cs₄ := q.2
  if intd.isEmpty && frac.isEmpty then none
  else
    let mant : Int := sgn * (digitsToNat (intd ++ frac) : Int)
    let den : Int := (10 : Int) ^ frac.length
    let e : Bool × List Char :=
      match cs₄ with
      | 'e' :: t | 'E' :: t =>
        match t with
        | '+' :: t₂ => (true, t₂.takeWhile Char.isDigit)
        | '-' :: t₂ => (false, t₂.takeWhile Char.isDigit)
        | _ => (true, t.takeWhile Char.isDigit)
      | _ => (true, [])
    if e.2.isEmpty then some ⟨mant, den⟩
    else if e.1 then some ⟨mant * (10 : Int) ^ digitsToNat e.2, den⟩
    else some ⟨mant, den * (10 : Int) ^ digitsToNat e.2⟩

def stod? (s : String) : Option Dbl := stodList s.toList

/-! ## Tokens (current lexer header, `src/unnamed/part_001`) -/

inductive TokenType where
  | NUMBER | STRING | IDENTIFIER | F_STRING
  | PRINT | INPUT | IF | ELSE | FOR | WHILE | DEF | RETURN | TRUE | FALSE | NONE
  | WITH | AS
  | PLUS | MINUS | MULTIPLY | DIVIDE | MODULO
  | ASSIGN | EQUAL | NOT_EQUAL | LESS | GREATER
  | LPAREN | RPAREN | LBRACE | RBRACE | LBRACKET | RBRACKET
  | COMMA | DOT | COLON | SEMICOLON
  | NEWLINE | EOF_TOKEN | COMMENT
deriving DecidableEq, Repr

structure Token where
  type : TokenType
  value : String
  line : Nat
  col : Nat
deriving DecidableEq, Repr

namespace Lexer

/-- `Lexer::getKeywordType` as implemented in `src/src/lexer.cpp`. -/
def getKeywordType (identifier : String) : TokenType :=
  if identifier = "print" then .PRINT
  else if identifier = "input" then .INPUT
  else if identifier = "if" then .IF
  else if identifier = "else" then .ELSE
  else if identifier = "for" then .FOR
  else if identifier = "while" then .WHILE
  else if identifier = "def" then .DEF
  else if identifier = "return" then .RETURN
  else if identifier = "True" then .TRUE
  else if identifier = "False" then .FALSE
  else if identifier = "None" then .NONE
  else .IDENTIFIER

/-- Modelled from the spec: the keyword table of the current lexer
implementation.  The current lexer's header (`src/unnamed/part_001`) declares
the `WITH` and `AS` token kinds and the parser consumes them, but the matching
`lexer.cpp` revision is not in the tree; per §4.1 of the spec the table is
(print, input, if, else, for, while, def, return, True, False, None, with,
as). -/
def getKeywordTypeCurrent (identifier : String) : TokenType :=
  if identifier = "print" then .PRINT
  else if identifier = "input" then .INPUT
  else if identifier = "if" then .IF
  else if identifier = "else" then .ELSE
  else if identifier = "for" then .FOR
  else if identifier = "while" then .WHILE
  else if identifier = "def" then .DEF
  else if identifier = "return" then .RETURN
  else if identifier = "True" then .TRUE
  else if identifier = "False" then .FALSE
  else if identifier = "None" then .NONE
  else if identifier = "with" then .WITH
  else if identifier = "as" then .AS
  else .IDENTIFIER

/-- `Lexer::readIdentifier`: the maximal run of alphanumeric/underscore
characters, classified by the keyword table.  This version uses the
spec-modelled current keyword table; positions are not tracked. -/
def readIdentifierCurrent (cs : List Char) : (TokenType × String) × List Char :=
  let run := String.mk (cs.takeWhile isIdentChar)
  ((getKeywordTypeCurrent run, run), cs.dropWhile isIdentChar)

def mkEOF (line col : Nat) : Token := ⟨.EOF_TOKEN, "", line, col⟩

/-- The whitespace-skipping loop at the top of `Lexer::tokenize`
(whitespace other than newline). -/
def skipWs : List Char → Nat → (List Char × Nat)
  | [], col => ([], col)
  | c :: t, col =>
    if isSpaceC c && c ≠ '\n' then skipWs t (col + 1) else (c :: t, col)

/-- The comment-skipping loop (`while current != newline and current != NUL`). -/
def skipComment : List Char → Nat → (List Char × Nat)
  | [], col => ([], col)
  | c :: t, col =>
    if c ≠ '\n' && c ≠ '\x00' then skipComment t (col + 1) else (c :: t, col)

/-- `Lexer::readNumber`: digits with at most one dot; a second dot stops the
scan without being consumed.  Returns (consumed digits, rest). -/
def readNumber : List Char → Bool → (List Char × List Char)
  | [], _ => ([], [])
  | c :: t, hasDot =>
    if c.isDigit then
      let r := readNumber t hasDot
      (c :: r.1, r.2)
    else if c = '.' then
      if hasDot then ([], c :: t)
      else
        let r := readNumber t true
        (c :: r.1, r.2)
    else ([], c :: t)

/-- Scan of a triple-quoted string body: consume until three consecutive
quote characters, or until fewer than three characters remain (in which case
the trailing characters are left unconsumed, exactly as in the C++ loop
bounded by `pos + 2 < len`). -/
def scanTripleQ (q : Char) : List Char → Nat → Nat → List Char →
    (List Char × List Char × Nat × Nat)
  | a :: b :: c :: t, line, col, acc =>
    if a = q && b = q && c = q then (acc.reverse, t, line, col + 3)
    else if a = '\n' then scanTripleQ q (b :: c :: t) (line + 1) 0 (a :: acc)
    else scanTripleQ q (b :: c :: t) line (col + 1) (a :: acc)
  | r, line, col, acc => (acc.reverse, r, line, col)

/-- Scan of an ordinary (single-line) string body: stops at the matching
quote, a NUL, or a newline; a backslash whose successor is not NUL consumes
that successor as well (escapes are kept verbatim, expansion is deferred). -/
def scanOrdStr (q : Char) : List Char → Nat → Nat → List Char →
    (List Char × List Char × Nat × Nat)
  | [], line, col, acc => (acc.reverse, [], line, col)
  | c :: t, line, col, acc =>
    if c = q || c = '\x00' || c = '\n' then (acc.reverse, c :: t, line, col)
    else if c = '\\' then
      match t with
      | h :: t₂ =>
        -- a NUL successor is not skipped over; the next iteration then stops
        -- at it, so the scan ends right after consuming the backslash
        if h = '\x00' then ((c :: acc).reverse, h :: t₂, line, col + 1)
        else if h = '\n' then scanOrdStr q t₂ (line + 1) 0 (h :: c :: acc)
        else scanOrdStr q t₂ line (col + 2) (h :: c :: acc)
      | [] => ((c :: acc).reverse, [], line, col + 1)
    else scanOrdStr q t line (col + 1) (c :: acc)

/-- The ordinary-string path of `Lexer::readString`: the body scan, then the
closing quote is consumed when present. -/
def readOrdinary (quote : Char) (rest : List Char) (line col : Nat) :
    Token × List Char × Nat × Nat :=
  let r := scanOrdStr quote rest line col []
  match r.2.1 with
  | c :: t =>
    if c = quote then (⟨.STRING, String.mk r.1, r.2.2.1, r.2.2.2 + 1⟩, t, r.2.2.1, r.2.2.2 + 1)
    else (⟨.STRING, String.mk r.1, r.2.2.1, r.2.2.2⟩, c :: t, r.2.2.1, r.2.2.2)
  | [] => (⟨.STRING, String.mk r.1, r.2.2.1, r.2.2.2⟩, [], r.2.2.1, r.2.2.2)

/-- `Lexer::readString`, entered with the opening quote already consumed
(`rest`, `col` reflect that).  Returns the token and the rest of the input. -/
def readString (quote : Char) (rest : List Char) (line col : Nat) :
    Token × List Char × Nat × Nat :=
  match rest with
  | a :: b :: t =>
    if quote = '\x22' && a = '\x22' && b = '\x22' then
      let r := scanTripleQ '\x22' t line (col + 2) []
      (⟨.STRING, String.mk r.1, r.2.2.1, r.2.2.2⟩, r.2.1, r.2.2.1, r.2.2.2)
    else if quote = '\x27' && a = '\x27' && b = '\x27' then
      let r := scanTripleQ '\x27' t line (col + 2) []
      (⟨.STRING, String.mk r.1, r.2.2.1, r.2.2.2⟩, r.2.1, r.2.2.1, r.2.2.2)
    else readOrdinary quote rest line col
  | _ => readOrdinary quote rest line col

/-- One iteration of the body of `Lexer::tokenize` after the whitespace skip
and the NUL check: either a token is produced, or characters are consumed
without one (comments, a `!` not followed by `=`, unrecognized characters). -/
def lexStep (c : Char) (rest : List Char) (line col : Nat) :
    Option Token × List Char × Nat × Nat :=
  if c = '#' then
    let k := skipComment (c :: rest) col
    (none, k.1, line, k.2)
  else if c.isDigit then
    let r := readNumber (c :: rest) false
    (some (Token.mk .NUMBER (String.mk r.1) line (col + r.1.length)), r.2, line, col + r.1.length)
  else if c = '\x22' || c = '\x27' then
    let r := readString c rest line (col + 1)
    (some r.1, r.2.1, r.2.2.1, r.2.2.2)
  else if c.isAlpha || c = '_' then
    let run := (c :: rest).takeWhile isIdentChar
    let cs₂ := (c :: rest).dropWhile isIdentChar
    (some (Token.mk (getKeywordType (String.mk run)) (String.mk run) line (col + run.length)),
     cs₂, line, col + run.length)
  else if c = '+' then (some (Token.mk .PLUS "+" line col), rest, line, col + 1)
  else if c = '-' then (some (Token.mk .MINUS "-" line col), rest, line, col + 1)
  else if c = '*' then (some (Token.mk .MULTIPLY "*" line col), rest, line, col + 1)
  else if c = '/' then (some (Token.mk .DIVIDE "/" line col), rest, line, col + 1)
  else if c = '%' then (some (Token.mk .MODULO "%" line col), rest, line, col + 1)
  else if c = '=' then
    match rest with
    | '=' :: t => (some (Token.mk .EQUAL "==" line (col + 2)), t, line, col + 2)
    | _ => (some (Token.mk .ASSIGN "=" line col), rest, line, col + 1)
  else if c = '!' then
    match rest with
    | '=' :: t => (some (Token.mk .NOT_EQUAL "!=" line (col + 2)), t, line, col + 2)
    | _ => (none, rest, line, col + 1)
  else if c = '<' then (some (Token.mk .LESS "<" line col), rest, line, col + 1)
  else if c = '>' then (some (Token.mk .GREATER ">" line col), rest, line, col + 1)
  else if c = '(' then (some (Token.mk .LPAREN "(" line col), rest, line, col + 1)
  else if c = ')' then (some (Token.mk .RPAREN ")" line col), rest, line, col + 1)
  else if c = '\x7b' then (some (Token.mk .LBRACE "\x7b" line col), rest, line, col + 1)
  else if c = '\x7d' then (some (Token.mk .RBRACE "\x7d" line col), rest, line, col + 1)
  else if c = '[' then (some (Token.mk .LBRACKET "[" line col), rest, line, col + 1)
  else if c = ']' then (some (Token.mk .RBRACKET "]" line col), rest, line, col + 1)
  else if c = ',' then (some (Token.mk .COMMA "," line col), rest, line, col + 1)
  else if c = '.' then (some (Token.mk .DOT "." line col), rest, line, col + 1)
  else if c = ':' then (some (Token.mk .COLON ":" line col), rest, line, col + 1)
  else if c = ';' then (some (Token.mk .SEMICOLON ";" line col), rest, line, col + 1)
  else if c = '\n' then (some (Token.mk .NEWLINE "\n" line col), rest, line + 1, 0)
  else (none, rest, line, col + 1)

/-- The loop of `Lexer::tokenize`.  The fuel only bounds the number of loop
iterations; every iteration consumes at least one character, so `length + 1`
at the entry point is always sufficient, and both exits append the final EOF
token. -/
def lexGo : Nat → List Char → Nat → Nat → List Token
  | 0, _, line, col => [mkEOF line col]
  | fuel + 1, cs, line, col =>
    match cs with
    | [] => [mkEOF line col]
    | _ :: _ =>
      let w := skipWs cs col
      match w.1 with
      | [] => [mkEOF line w.2]
      | c :: rest =>
        if c = '\x00' then [mkEOF line w.2]
        else
          match lexStep c rest line w.2 with
          | (some tok, cs₂, line₂, col₂) => tok :: lexGo fuel cs₂ line₂ col₂
          | (none, cs₂, line₂, col₂) => lexGo fuel cs₂ line₂ col₂

/-- `Lexer::tokenize` of `src/src/lexer.cpp`. -/
def tokenize (source : String) : List Token :=
  lexGo (source.toList.length + 1) source.toList 1 0

end Lexer

/-! ## AST (current `parser.h`, reconstructed from its uses in
`src/unnamed/part_005` and `src/unnamed/part_003`) -/

inductive ExprNode where
  | LiteralExpr (value : String) (type : TokenType)
  | FStringExpr (template_string : String)
  | IdentifierExpr (name : String)
  | BinaryExpr (left : ExprNode) (op : TokenType) (right : ExprNode)
  | CallExpr (callee : ExprNode) (arguments : List ExprNode)
  | ListExpr (elements : List ExprNode)
  | IndexExpr (array : ExprNode) (index : ExprNode)
deriving Repr

inductive StmtNode where
  | PrintStmt (expressions : List ExprNode)
  | AssignStmt (variableName : String) (value : ExprNode)
  | ExprStmt (expression : ExprNode)
  | WithStmt (context_expr : ExprNode) (optional_vars : String) (body : List StmtNode)
deriving Repr

/-! ## Parser (`src/unnamed/part_005`, first copy)

The C++ parser is mutually recursive through the token stream; recursion depth
is bounded by the input length, so the embedding indexes the parser functions
by a fuel that is chosen generously at the entry points (`parserFuel`).  Fuel
exhaustion surfaces as an ordinary parse error; with the supplied fuel it is
unreachable, since every cycle through the functions consumes at least one
token.  `Funs` bundles the functions of one fuel level; every helper receives
the bundle of the next-lower level for the calls on which the C++ code
recurses. -/

namespace Parser

abbrev PR (α : Type) := Except String α × List Token

def eofTok : Token := ⟨.EOF_TOKEN, "", 0, 0⟩

/-- `Parser::peek` (the C++ code indexes `tokens[current]`, which stays in
bounds because token streams end in EOF and `advance` stops there). -/
def peekT (ts : List Token) : Token := ts.headD eofTok

/-- `Parser::advance`: moves one token unless at EOF. -/
def advanceT (ts : List Token) : List Token :=
  if (peekT ts).type = .EOF_TOKEN then ts else ts.tail

/-- `Parser::consume`: take the expected token or report the message with the
line of the offending token, consuming nothing. -/
def consumeT (tt : TokenType) (msg : String) (ts : List Token) :
    Except String Token × List Token :=
  let t := peekT ts
  if t.type = tt then (.ok t, advanceT ts)
  else (.error (msg ++ " at line " ++ toString t.line), ts)

structure Funs where
  parseExpression : List Token → PR ExprNode
  parseStatement : List Token → PR StmtNode
  compLoop : ExprNode → List Token → PR ExprNode
  termLoop : ExprNode → List Token → PR ExprNode
  factorLoop : ExprNode → List Token → PR ExprNode
  postfixLoop : ExprNode → List Token → PR ExprNode
  parseCall : ExprNode → List Token → PR ExprNode
  parseIndex : ExprNode → List Token → PR ExprNode
  argsLoop : ExprNode → List ExprNode → List Token → PR ExprNode
  elemsLoop : List ExprNode → List Token → PR ExprNode
  printLoop : List ExprNode → List Token → PR (List ExprNode)
  withBodyLoop : List StmtNode → List Token → PR (List StmtNode)

/-- The postfix loop inside `Parser::parsePrimary` for an identifier: a call
consumes `(` and finishes in `parseCall`; an index keeps looping (the C++
`match(LBRACKET)` followed by `current--` nets out to a peek). -/
def postfixLoopH (prev : Funs) (base : ExprNode) (ts : List Token) : PR ExprNode :=
  let t := peekT ts
  if t.type = .LPAREN then prev.parseCall base (advanceT ts)
  else if t.type = .LBRACKET then
    match prev.parseIndex base ts with
    | (.ok base₂, ts₂) => prev.postfixLoop base₂ ts₂
    | (.error e, ts₂) => (.error e, ts₂)
  else (.ok base, ts)

/-- `Parser::parsePrimary`. -/
def parsePrimaryH (prev : Funs) (ts : List Token) : PR ExprNode :=
  let t := peekT ts
  if t.type = .NUMBER then (.ok (.LiteralExpr t.value .NUMBER), advanceT ts)
  else if t.type = .STRING then (.ok (.LiteralExpr t.value .STRING), advanceT ts)
  else if t.type = .F_STRING then (.ok (.FStringExpr t.value), advanceT ts)
  else if t.type = .TRUE then (.ok (.LiteralExpr "True" .TRUE), advanceT ts)
  else if t.type = .FALSE then (.ok (.LiteralExpr "False" .FALSE), advanceT ts)
  else if t.type = .LBRACKET then
    -- `Parser::parseList`: consume the bracket, then elements
    let ts₁ := advanceT ts
    if (peekT ts₁).type = .RBRACKET then (.ok (.ListExpr []), advanceT ts₁)
    else prev.elemsLoop [] ts₁
  else if t.type = .IDENTIFIER then
    postfixLoopH prev (.IdentifierExpr t.value) (advanceT ts)
  else if t.type = .LPAREN then
    match prev.parseExpression (advanceT ts) with
    | (.ok e, ts₁) =>
      match consumeT .RPAREN ("Expected \x27)\x27 after expression") ts₁ with
      | (.ok _, ts₂) => (.ok e, ts₂)
      | (.error m, ts₂) => (.error m, ts₂)
    | (.error m, ts₁) => (.error m, ts₁)
  else (.error ("Expected expression at line " ++ toString t.line), ts)

/-- `Parser::parseUnary` (pass-through). -/
def parseUnaryH (prev : Funs) (ts : List Token) : PR ExprNode :=
  parsePrimaryH prev ts

/-- The `*`, `/`, `%` loop of `Parser::parseFactor`. -/
def factorLoopH (prev : Funs) (expr : ExprNode) (ts : List Token) : PR ExprNode :=
  let t := peekT ts
  if t.type = .MULTIPLY || t.type = .DIVIDE || t.type = .MODULO then
    match parseUnaryH prev (advanceT ts) with
    | (.ok r, ts₁) => prev.factorLoop (.BinaryExpr expr t.type r) ts₁
    | (.error e, ts₁) => (.error e, ts₁)
  else (.ok expr, ts)

/-- `Parser::parseFactor`. -/
def parseFactorH (prev : Funs) (ts : List Token) : PR ExprNode :=
  match parseUnaryH prev ts with
  | (.ok e, ts₁) => factorLoopH prev e ts₁
  | (.error m, ts₁) => (.error m, ts₁)

/-- The `+`, `-` loop of `Parser::parseTerm`. -/
def termLoopH (prev : Funs) (expr : ExprNode) (ts : List Token) : PR ExprNode :=
  let t := peekT ts
  if t.type = .PLUS || t.type = .MINUS then
    match parseFactorH prev (advanceT ts) with
    | (.ok r, ts₁) => prev.termLoop (.BinaryExpr expr t.type r) ts₁
    | (.error e, ts₁) => (.error e, ts₁)
  else (.ok expr, ts)

/-- `Parser::parseTerm`. -/
def parseTermH (prev : Funs) (ts : List Token) : PR ExprNode :=
  match parseFactorH prev ts with
  | (.ok e, ts₁) => termLoopH prev e ts₁
  | (.error m, ts₁) => (.error m, ts₁)

/-- The comparison-operator loop of `Parser::parseComparison`. -/
def compLoopH (prev : Funs) (expr : ExprNode) (ts : List Token) : PR ExprNode :=
  let t := peekT ts
  if t.type = .EQUAL || t.type = .NOT_EQUAL || t.type = .LESS || t.type = .GREATER then
    match parseTermH prev (advanceT ts) with
    | (.ok r, ts₁) => prev.compLoop (.BinaryExpr expr t.type r) ts₁
    | (.error e, ts₁) => (.error e, ts₁)
  else (.ok expr, ts)

/-- `Parser::parseComparison`. -/
def parseComparisonH (prev : Funs) (ts : List Token) : PR ExprNode :=
  match parseTermH prev ts with
  | (.ok e, ts₁) => compLoopH prev e ts₁
  | (.error m, ts₁) => (.error m, ts₁)

/-- `Parser::parseExpression`. -/
def parseExpressionH (prev : Funs) (ts : List Token) : PR ExprNode :=
  parseComparisonH prev ts

/-- The argument do-while loop of `Parser::parseCall`. -/
def argsLoopH (prev : Funs) (callee : ExprNode) (acc : List ExprNode)
    (ts : List Token) : PR ExprNode :=
  match parseExpressionH prev ts with
  | (.ok e, ts₁) =>
    if (peekT ts₁).type = .COMMA then prev.argsLoop callee (acc ++ [e]) (advanceT ts₁)
    else
      match consumeT .RPAREN ("Expected \x27)\x27 after arguments") ts₁ with
      | (.ok _, ts₂) => (.ok (.CallExpr callee (acc ++ [e])), ts₂)
      | (.error m, ts₂) => (.error m, ts₂)
  | (.error m, ts₁) => (.error m, ts₁)

/-- `Parser::parseCall`, entered with `(` already consumed. -/
def parseCallH (prev : Funs) (callee : ExprNode) (ts : List Token) : PR ExprNode :=
  if (peekT ts).type = .RPAREN then (.ok (.CallExpr callee []), advanceT ts)
  else argsLoopH prev callee [] ts

/-- `Parser::parseIndex` (consumes its own brackets). -/
def parseIndexH (prev : Funs) (array : ExprNode) (ts : List Token) : PR ExprNode :=
  match consumeT .LBRACKET ("Expected \x27[\x27 for index") ts with
  | (.ok _, ts₁) =>
    match parseExpressionH prev ts₁ with
    | (.ok idx, ts₂) =>
      match consumeT .RBRACKET ("Expected \x27]\x27 after index") ts₂ with
      | (.ok _, ts₃) => (.ok (.IndexExpr array idx), ts₃)
      | (.error m, ts₃) => (.error m, ts₃)
    | (.error m, ts₂) => (.error m, ts₂)
  | (.error m, ts₁) => (.error m, ts₁)

/-- The element do-while loop of `Parser::parseList`. -/
def elemsLoopH (prev : Funs) (acc : List ExprNode) (ts : List Token) : PR ExprNode :=
  match parseExpressionH prev ts with
  | (.ok e, ts₁) =>
    if (peekT ts₁).type = .COMMA then prev.elemsLoop (acc ++ [e]) (advanceT ts₁)
    else
      match consumeT .RBRACKET ("Expected \x27]\x27 after list elements") ts₁ with
      | (.ok _, ts₂) => (.ok (.ListExpr (acc ++ [e])), ts₂)
      | (.error m, ts₂) => (.error m, ts₂)
  | (.error m, ts₁) => (.error m, ts₁)

/-- The argument loop of `Parser::parsePrintStatement` after the first
expression. -/
def printLoopH (prev : Funs) (acc : List ExprNode) (ts : List Token) :
    PR (List ExprNode) :=
  if (peekT ts).type = .COMMA then
    match parseExpressionH prev (advanceT ts) with
    | (.ok e, ts₁) => prev.printLoop (acc ++ [e]) ts₁
    | (.error m, ts₁) => (.error m, ts₁)
  else
    match consumeT .RPAREN ("Expected \x27)\x27 after print arguments") ts with
    | (.ok _, ts₁) => (.ok acc, ts₁)
    | (.error m, ts₁) => (.error m, ts₁)

/-- `Parser::parsePrintStatement`. -/
def parsePrintStatementH (prev : Funs) (ts : List Token) : PR StmtNode :=
  match consumeT .PRINT ("Expected \x27print\x27") ts with
  | (.ok _, ts₁) =>
    match consumeT .LPAREN ("Expected \x27(\x27 after \x27print\x27") ts₁ with
    | (.ok _, ts₂) =>
      if (peekT ts₂).type = .RPAREN then
        match consumeT .RPAREN ("Expected \x27)\x27 after print arguments") ts₂ with
        | (.ok _, ts₃) => (.ok (.PrintStmt []), ts₃)
        | (.error m, ts₃) => (.error m, ts₃)
      else
        match parseExpressionH prev ts₂ with
        | (.ok e, ts₃) =>
          match printLoopH prev [e] ts₃ with
          | (.ok exprs, ts₄) => (.ok (.PrintStmt exprs), ts₄)
          | (.error m, ts₄) => (.error m, ts₄)
        | (.error m, ts₃) => (.error m, ts₃)
    | (.error m, ts₂) => (.error m, ts₂)
  | (.error m, ts₁) => (.error m, ts₁)

/-- `Parser::parseAssignmentStatement`. -/
def parseAssignmentStatementH (prev : Funs) (ts : List Token) : PR StmtNode :=
  match consumeT .IDENTIFIER ("Expected identifier") ts with
  | (.ok id, ts₁) =>
    match consumeT .ASSIGN ("Expected \x27=\x27 after identifier") ts₁ with
    | (.ok _, ts₂) =>
      match parseExpressionH prev ts₂ with
      | (.ok v, ts₃) => (.ok (.AssignStmt id.value v), ts₃)
      | (.error m, ts₃) => (.error m, ts₃)
    | (.error m, ts₂) => (.error m, ts₂)
  | (.error m, ts₁) => (.error m, ts₁)

/-- The body loop of `Parser::parseWithStatement`: statements until the next
NEWLINE or EOF, consuming one NEWLINE after each statement (so in fact the
body extends past single-line bodies until a blank line or the end). -/
def withBodyLoopH (prev : Funs) (acc : List StmtNode) (ts : List Token) :
    PR (List StmtNode) :=
  let t := peekT ts
  if t.type = .NEWLINE || t.type = .EOF_TOKEN then (.ok acc, ts)
  else
    match prev.parseStatement ts with
    | (.ok st, ts₁) =>
      let ts₂ := if (peekT ts₁).type = .NEWLINE then advanceT ts₁ else ts₁
      prev.withBodyLoop (acc ++ [st]) ts₂
    | (.error m, ts₁) => (.error m, ts₁)

/-- `Parser::parseWithStatement`. -/
def parseWithStatementH (prev : Funs) (ts : List Token) : PR StmtNode :=
  match consumeT .WITH ("Expected \x27with\x27") ts with
  | (.ok _, ts₁) =>
    match parseExpressionH prev ts₁ with
    | (.ok ctx, ts₂) =>
      let asPart : Except String (String × List Token) :=
        if (peekT ts₂).type = .AS then
          match consumeT .IDENTIFIER ("Expected identifier after \x27as\x27") (advanceT ts₂) with
          | (.ok v, ts₃) => .ok (v.value, ts₃)
          | (.error m, _) => .error m
        else .ok ("", ts₂)
      match asPart with
      | .error m => (.error m, ts₂)
      | .ok (vars, ts₃) =>
        match consumeT .COLON ("Expected \x27:\x27 after with statement") ts₃ with
        | (.ok _, ts₄) =>
          match consumeT .NEWLINE ("Expected newline after with statement") ts₄ with
          | (.ok _, ts₅) =>
            match withBodyLoopH prev [] ts₅ with
            | (.ok body, ts₆) => (.ok (.WithStmt ctx vars body), ts₆)
            | (.error m, ts₆) => (.error m, ts₆)
          | (.error m, ts₅) => (.error m, ts₅)
        | (.error m, ts₄) => (.error m, ts₄)
    | (.error m, ts₂) => (.error m, ts₂)
  | (.error m, ts₁) => (.error m, ts₁)

/-- `Parser::parseStatement`. -/
def parseStatementH (prev : Funs) (ts : List Token) : PR StmtNode :=
  let t := peekT ts
  let assignAhead : Bool :=
    match ts with
    | t₀ :: t₁ :: _ => t₀.type = .IDENTIFIER && t₁.type = .ASSIGN
    | _ => false
  if t.type = .PRINT then parsePrintStatementH prev ts
  else if t.type = .WITH then parseWithStatementH prev ts
  else if assignAhead then parseAssignmentStatementH prev ts
  else
    match parseExpressionH prev ts with
    | (.ok e, ts₁) => (.ok (.ExprStmt e), ts₁)
    | (.error m, ts₁) => (.error m, ts₁)

/-- One fuel level of the parser. -/
def parserStep (prev : Funs) : Funs where
  parseExpression := parseExpressionH prev
  parseStatement := parseStatementH prev
  compLoop := compLoopH prev
  termLoop := termLoopH prev
  factorLoop := factorLoopH prev
  postfixLoop := postfixLoopH prev
  parseCall := parseCallH prev
  parseIndex := parseIndexH prev
  argsLoop := argsLoopH prev
  elemsLoop := elemsLoopH prev
  printLoop := printLoopH prev
  withBodyLoop := withBodyLoopH prev

/-- Exhausted fuel: every function reports an error (unreachable with the
fuel supplied by the entry points). -/
def funsZero : Funs where
  parseExpression := fun ts => (.error "parser fuel exhausted", ts)
  parseStatement := fun ts => (.error "parser fuel exhausted", ts)
  compLoop := fun _ ts => (.error "parser fuel exhausted", ts)
  termLoop := fun _ ts => (.error "parser fuel exhausted", ts)
  factorLoop := fun _ ts => (.error "parser fuel exhausted", ts)
  postfixLoop := fun _ ts => (.error "parser fuel exhausted", ts)
  parseCall := fun _ ts => (.error "parser fuel exhausted", ts)
  parseIndex := fun _ ts => (.error "parser fuel exhausted", ts)
  argsLoop := fun _ _ ts => (.error "parser fuel exhausted", ts)
  elemsLoop := fun _ ts => (.error "parser fuel exhausted", ts)
  printLoop := fun _ ts => (.error "parser fuel exhausted", ts)
  withBodyLoop := fun _ ts => (.error "parser fuel exhausted", ts)

def parserFuns : Nat → Funs
  | 0 => funsZero
  | f + 1 => parserStep (parserFuns f)

/-- A generous fuel bound: the parser consumes a token on every cycle, so the
depth of nested levels is far below this. -/
def parserFuel (ts : List Token) : Nat := 8 * ts.length + 64

def parseStatementTop (ts : List Token) : PR StmtNode :=
  (parserFuns (parserFuel ts)).parseStatement ts

def parseExpressionTop (ts : List Token) : PR ExprNode :=
  (parserFuns (parserFuel ts)).parseExpression ts

/-- Modelled from the spec: `Parser::parseExpressionPublic` is declared in the
current `parser.h` (absent from the tree) and called by `Executor::evaluateEval`;
per §4.4 of the spec it re-parses the string as a single expression, i.e. it
exposes `parseExpression`. -/
def parseExpressionPublic (ts : List Token) : PR ExprNode :=
  parseExpressionTop ts

/-- The skip-to-next-statement recovery inside `Parser::parse`:
discard tokens up to the next NEWLINE or EOF. -/
def skipToNewline (ts : List Token) : List Token :=
  ts.dropWhile (fun t => t.type ≠ .NEWLINE && t.type ≠ .EOF_TOKEN)

/-- The recovery plus the trailing `if peek NEWLINE advance`. -/
def skipPastNewline (ts : List Token) : List Token :=
  let r := skipToNewline ts
  if (peekT r).type = .NEWLINE then advanceT r else r

/-- The statement loop of `Parser::parse`.  Each iteration of the C++ loop
consumes at least one token, so `length + 1` iterations always reach the
end. -/
def parseLoop : Nat → List Token → List StmtNode
  | 0, _ => []
  | f + 1, ts =>
    match ts with
    | [] => []
    | t :: rest =>
      if t.type = .NEWLINE then parseLoop f rest
      else if t.type = .EOF_TOKEN then []
      else
        match parseStatementTop ts with
        | (.ok st, ts₁) =>
          let ts₂ := if (peekT ts₁).type = .NEWLINE then advanceT ts₁ else ts₁
          st :: parseLoop f ts₂
        | (.error _, ts₁) => parseLoop f (skipPastNewline ts₁)

/-- `Parser::parse`. -/
def parse (ts : List Token) : List StmtNode :=
  parseLoop (ts.length + 1) ts

end Parser

/-! ## Value model (`src/unnamed/part_000`, second copy) -/

structure FileObject where
  filename : String
  mode : String
  is_binary : Bool
  is_open : Bool
deriving DecidableEq, Repr

inductive Value where
  | NUMBER (number : Dbl)
  | STRING (string_value : String)
  | BOOLEAN (boolean : Bool)
  | NONE
  | FILE_OBJECT (file_object : FileObject)
  | LIST (list_value : List Value)
deriving Repr

def Value.isStr : Value → Bool
  | .STRING _ => true
  | _ => false

mutual

/-- `Value::toString` (`src/unnamed/part_003`), with the element loop of the
LIST case as a mutually recursive list renderer.  The C++ null `file_object`
branch (`<closed file>`) is dead: the pointer is always set, since `Value`
declares only copying assignment and construction. -/
def Value.toString : Value → String
  | .NUMBER q => q.render
  | .STRING s => s
  | .BOOLEAN b => if b then "True" else "False"
  | .LIST xs => "[" ++ Value.toStringList xs ++ "]"
  | .FILE_OBJECT fo => "<file \x27" ++ fo.filename ++ "\x27 mode \x27" ++ fo.mode ++ "\x27>"
  | .NONE => "None"

def Value.toStringList : List Value → String
  | [] => ""
  | [x] => x.toString
  | x :: y :: rest => x.toString ++ ", " ++ Value.toStringList (y :: rest)

end

/-- `Value::toNumber` (`src/unnamed/part_003`): `FILE_OBJECT` has no case and
falls to the default. -/
def Value.toNumber : Value → Dbl
  | .NUMBER n => n
  | .STRING s =>
    match stod? s with
    | some d => d
    | none => ⟨0, 1⟩
  | .BOOLEAN b => if b then ⟨1, 1⟩ else ⟨0, 1⟩
  | .LIST xs => ⟨xs.length, 1⟩
  | _ => ⟨0, 1⟩

/-- `Value::toBoolean` (`src/unnamed/part_003`). -/
def Value.toBoolean : Value → Bool
  | .NUMBER n => n.num != 0
  | .STRING s => s ≠ ""
  | .BOOLEAN b => b
  | .LIST xs => !xs.isEmpty
  | .FILE_OBJECT fo => fo.is_open
  | .NONE => false

/-! ## Executor (`src/unnamed/part_003`) -/

namespace Executor

/-- The interpreter state: the variable environment of the `Executor` object,
plus explicit models of the standard streams and the filesystem. -/
structure ExecState where
  vars : String → Option Value
  interactiveMode : Bool
  output : String
  inputLines : List String
  fs : String → Option String

def setVar (name : String) (v : Value) (env : String → Option Value) :
    String → Option Value :=
  fun n => if n = name then some v else env n

def eraseVar (name : String) (env : String → Option Value) :
    String → Option Value :=
  fun n => if n = name then none else env n

/-- A raised fault (a C++ exception), or exhausted fuel (the unbounded
evaluator recursion, i.e. a stack overflow; caught by nothing). -/
inductive EvalErr where
  | fault (msg : String)
  | outOfFuel
deriving DecidableEq, Repr

abbrev EvalRes (α : Type) := Except EvalErr α × ExecState

/-- `Executor::fastGetString`: one line of standard input (an exhausted
stream yields the empty string, as `std::getline` leaves it). -/
def fastGetString (s : ExecState) : String × ExecState :=
  match s.inputLines with
  | [] => ("", s)
  | l :: rest => (l, { s with inputLines := rest })

/-- `Executor::fastPutString`. -/
def fastPutString (str : String) (s : ExecState) : ExecState :=
  { s with output := s.output ++ str }

/-! ### The template mini-evaluator
(`Executor::parseAndEvaluateSimpleExpression`) -/

/-- The right-to-left operator scan: the greatest index holding one of `ops`
whose left and right parts are both nonempty (the C++ loop returns at the
first such index counting down, and the recursive evaluations below it cannot
throw, so the `catch`-`continue` is dead). -/
def findOpIdx (ops : List Char) (expr : List Char) : Option Nat :=
  (List.range expr.length).reverse.find? fun i =>
    ops.contains (expr.getD i ' ') && decide (0 < i) && decide (i + 1 < expr.length)

/-- `Executor::parseAndEvaluateSimpleExpression`.  The recursion is on strict
sub-strings, so the fuel supplied by the wrapper is always sufficient; the
zero case is unreachable. -/
def paeGo : Nat → (String → Option Value) → List Char → Value
  | 0, _, expr_str => .STRING ("\x7b" ++ String.mk expr_str ++ "\x7d")
  | fuel + 1, vars, expr_str =>
    let expr := expr_str.filter (fun c => !(isSpaceC c))
    if expr.isEmpty then .STRING "None"
    else if expr.all (fun c => c.isDigit || c = '.') then
      match stodList expr with
      | some d => .NUMBER d
      | none => .STRING (String.mk expr)
    else if expr.all (fun c => c.isAlphanum || c = '_') then
      match vars (String.mk expr) with
      | some val =>
        match val with
        | .NUMBER n => .NUMBER n
        | .STRING str => .STRING str
        | .BOOLEAN b => .BOOLEAN b
        | .LIST l => .LIST l
        | .FILE_OBJECT _ => .NONE
        | .NONE => .NONE
      | none => .STRING ("\x7b" ++ String.mk expr ++ "\x7d")
    else
      match findOpIdx ['+', '-'] expr with
      | some i =>
        let left_val := paeGo fuel vars (expr.take i)
        let right_val := paeGo fuel vars (expr.drop (i + 1))
        if expr.getD i ' ' = '+' then
          if left_val.isStr || right_val.isStr then
            .STRING (left_val.toString ++ right_val.toString)
          else .NUMBER (Dbl.add left_val.toNumber right_val.toNumber)
        else .NUMBER (Dbl.sub left_val.toNumber right_val.toNumber)
      | none =>
        match findOpIdx ['*', '/', '%'] expr with
        | some i =>
          let left_val := paeGo fuel vars (expr.take i)
          let right_val := paeGo fuel vars (expr.drop (i + 1))
          if expr.getD i ' ' = '*' then
            .NUMBER (Dbl.mul left_val.toNumber right_val.toNumber)
          else if expr.getD i ' ' = '/' then
            .NUMBER (Dbl.div left_val.toNumber right_val.toNumber)
          else .NUMBER (Dbl.fmod left_val.toNumber right_val.toNumber)
        | none => .STRING ("\x7b" ++ String.mk expr_str ++ "\x7d")

def parseAndEvaluateSimpleExpression (vars : String → Option Value)
    (expr_str : List Char) : Value :=
  paeGo (expr_str.length + 1) vars expr_str

/-! ### Template strings (`Executor::evaluateFString`) -/

/-- The escape switch: named escapes map to control characters; backslash,
the quotes, the braces and every other character stand for themselves. -/
def escByte (c : Char) : Char :=
  if c = 'n' then '\n'
  else if c = 'r' then '\r'
  else if c = 't' then '\t'
  else if c = 'b' then '\x08'
  else if c = 'f' then '\x0c'
  else if c = 'v' then '\x0b'
  else c

/-- Find the matching close of a brace region, counting nesting (the C++
`brace_count` minus the opening brace).  `none` when unmatched. -/
def scanBrace : List Char → Nat → Option (List Char × List Char)
  | [], _ => none
  | c :: t, depth =>
    if c = '\x7b' then
      match scanBrace t (depth + 1) with
      | some r => some (c :: r.1, r.2)
      | none => none
    else if c = '\x7d' then
      if depth = 0 then some ([], t)
      else
        match scanBrace t (depth - 1) with
        | some r => some (c :: r.1, r.2)
        | none => none
    else
      match scanBrace t depth with
      | some r => some (c :: r.1, r.2)
      | none => none

/-- The scan loop of `Executor::evaluateFString`.  Every iteration consumes at
least one character, so the wrapper's fuel is always sufficient. -/
def fstrGo : Nat → (String → Option Value) → List Char → String → String
  | 0, _, _, acc => acc
  | fuel + 1, vars, cs, acc =>
    match cs with
    | [] => acc
    | c :: t =>
      if c = '\\' then
        match t with
        | h :: t₂ => fstrGo fuel vars t₂ (acc.push (escByte h))
        | [] => fstrGo fuel vars [] (acc.push c)
      else if c = '\x7b' then
        match scanBrace t 0 with
        | some (region, rest) =>
          fstrGo fuel vars rest
            (acc ++ (parseAndEvaluateSimpleExpression vars region).toString)
        | none => fstrGo fuel vars t (acc.push c)
      else fstrGo fuel vars t (acc.push c)

/-- `Executor::evaluateFString` (pure in the environment). -/
def evaluateFString (vars : String → Option Value)
    (template_string : String) : String :=
  fstrGo (template_string.toList.length + 1) vars template_string.toList ""

/-! ### The evaluator proper

`Funs` bundles expression evaluation and statement execution at one fuel
level; each helper receives the bundle of the next-lower level for the calls
through which the C++ code recurses (one level per nested evaluation, the
analogue of one stack frame). -/

structure Funs where
  evalExpr : ExprNode → ExecState → EvalRes Value
  execStmt : StmtNode → ExecState → EvalRes Unit

/-- `Executor::evaluateLiteral`.  `std::stod` on an unparsable NUMBER literal
throws `std::invalid_argument` (message `stod`). -/
def evaluateLiteral (value : String) (type : TokenType) : Except EvalErr Value :=
  match type with
  | .NUMBER =>
    match stod? value with
    | some d => .ok (.NUMBER d)
    | none => .error (.fault "stod")
  | .STRING => .ok (.STRING value)
  | .TRUE => .ok (.BOOLEAN true)
  | .FALSE => .ok (.BOOLEAN false)
  | _ => .ok (.STRING value)

/-- Left-to-right evaluation of an expression list (the argument/element
loops of the executor). -/
def evalExprList (prev : Funs) : List ExprNode → ExecState → EvalRes (List Value)
  | [], s => (.ok [], s)
  | e :: rest, s =>
    match prev.evalExpr e s with
    | (.ok v, s₁) =>
      match evalExprList prev rest s₁ with
      | (.ok vs, s₂) => (.ok (v :: vs), s₂)
      | (.error m, s₂) => (.error m, s₂)
    | (.error m, s₁) => (.error m, s₁)

/-- `Executor::evaluateList`. -/
def evaluateList (prev : Funs) (elements : List ExprNode) (s : ExecState) :
    EvalRes Value :=
  match evalExprList prev elements s with
  | (.ok vs, s₁) => (.ok (.LIST vs), s₁)
  | (.error m, s₁) => (.error m, s₁)

/-- `Executor::evaluateIndex`. -/
def evaluateIndex (prev : Funs) (array index : ExprNode) (s : ExecState) :
    EvalRes Value :=
  match prev.evalExpr array s with
  | (.ok av, s₁) =>
    match prev.evalExpr index s₁ with
    | (.ok iv, s₂) =>
      match av with
      | .LIST xs =>
        let index_val : Int := iv.toNumber.trunc
        if 0 ≤ index_val && index_val < (xs.length : Int) then
          (.ok (xs.getD index_val.toNat Value.NONE), s₂)
        else (.error (.fault "Index out of range"), s₂)
      | _ => (.error (.fault "Indexing not supported for this type"), s₂)
    | (.error m, s₂) => (.error m, s₂)
  | (.error m, s₁) => (.error m, s₁)

/-- `Executor::evaluateIdentifier`: an unbound name reads as None. -/
def evaluateIdentifier (name : String) (s : ExecState) : Value :=
  match s.vars name with
  | some v => v
  | none => .NONE

/-- `Executor::evaluateBinary`. -/
def evaluateBinary (prev : Funs) (left : ExprNode) (op : TokenType)
    (right : ExprNode) (s : ExecState) : EvalRes Value :=
  match prev.evalExpr left s with
  | (.ok l, s₁) =>
    match prev.evalExpr right s₁ with
    | (.ok r, s₂) =>
      let res : Value :=
        match op with
        | .PLUS =>
          if l.isStr || r.isStr then .STRING (l.toString ++ r.toString)
          else
            match l, r with
            | .LIST xs, .LIST ys => .LIST (xs ++ ys)
            | _, _ => .NUMBER (Dbl.add l.toNumber r.toNumber)
        | .MINUS => .NUMBER (Dbl.sub l.toNumber r.toNumber)
        | .MULTIPLY => .NUMBER (Dbl.mul l.toNumber r.toNumber)
        | .DIVIDE => .NUMBER (Dbl.div l.toNumber r.toNumber)
        | .MODULO => .NUMBER (Dbl.fmod l.toNumber r.toNumber)
        | _ => .NONE
      (.ok res, s₂)
    | (.error m, s₂) => (.error m, s₂)
  | (.error m, s₁) => (.error m, s₁)

/-- `Executor::evaluateStr`. -/
def evaluateStr (prev : Funs) (args : List ExprNode) (s : ExecState) : EvalRes Value :=
  match args with
  | [] => (.ok (.STRING ""), s)
  | a :: _ =>
    match prev.evalExpr a s with
    | (.ok v, s₁) => (.ok (.STRING v.toString), s₁)
    | (.error m, s₁) => (.error m, s₁)

/-- `Executor::evaluateRepr`. -/
def evaluateRepr (prev : Funs) (args : List ExprNode) (s : ExecState) : EvalRes Value :=
  match args with
  | [] => (.ok (.STRING "\x27\x27"), s)
  | a :: _ =>
    match prev.evalExpr a s with
    | (.ok v, s₁) =>
      if v.isStr then (.ok (.STRING ("\x27" ++ v.toString ++ "\x27")), s₁)
      else (.ok (.STRING v.toString), s₁)
    | (.error m, s₁) => (.error m, s₁)

/-- `Executor::evaluateInt`. -/
def evaluateInt (prev : Funs) (args : List ExprNode) (s : ExecState) : EvalRes Value :=
  match args with
  | [] => (.ok (.NUMBER ⟨0, 1⟩), s)
  | a :: _ =>
    match prev.evalExpr a s with
    | (.ok v, s₁) => (.ok (.NUMBER (Dbl.ofInt v.toNumber.trunc)), s₁)
    | (.error m, s₁) => (.error m, s₁)

/-- `Executor::evaluateFloat`. -/
def evaluateFloat (prev : Funs) (args : List ExprNode) (s : ExecState) : EvalRes Value :=
  match args with
  | [] => (.ok (.NUMBER ⟨0, 1⟩), s)
  | a :: _ =>
    match prev.evalExpr a s with
    | (.ok v, s₁) => (.ok (.NUMBER v.toNumber), s₁)
    | (.error m, s₁) => (.error m, s₁)

/-- `Executor::evaluateBool`. -/
def evaluateBool (prev : Funs) (args : List ExprNode) (s : ExecState) : EvalRes Value :=
  match args with
  | [] => (.ok (.BOOLEAN false), s)
  | a :: _ =>
    match prev.evalExpr a s with
    | (.ok v, s₁) => (.ok (.BOOLEAN v.toBoolean), s₁)
    | (.error m, s₁) => (.error m, s₁)

/-- `Executor::evaluateLen`. -/
def evaluateLen (prev : Funs) (args : List ExprNode) (s : ExecState) : EvalRes Value :=
  match args with
  | [] => (.ok (.NUMBER ⟨0, 1⟩), s)
  | a :: _ =>
    match prev.evalExpr a s with
    | (.ok v, s₁) =>
      match v with
      | .LIST xs => (.ok (.NUMBER ⟨xs.length, 1⟩), s₁)
      | _ => (.ok (.NUMBER ⟨v.toString.length, 1⟩), s₁)
    | (.error m, s₁) => (.error m, s₁)

/-- `Executor::evaluateOpen`: builds the handle; the filesystem is not
touched. -/
def evaluateOpen (prev : Funs) (args : List ExprNode) (s : ExecState) : EvalRes Value :=
  match args with
  | [] => (.error (.fault ("open() missing required argument \x27file\x27")), s)
  | a :: rest =>
    match prev.evalExpr a s with
    | (.ok fv, s₁) =>
      match rest with
      | [] => (.ok (.FILE_OBJECT ⟨fv.toString, "r", false, true⟩), s₁)
      | m :: _ =>
        match prev.evalExpr m s₁ with
        | (.ok mv, s₂) =>
          let mode := mv.toString
          (.ok (.FILE_OBJECT ⟨fv.toString, mode, mode.contains 'b', true⟩), s₂)
        | (.error m, s₂) => (.error m, s₂)
    | (.error m, s₁) => (.error m, s₁)

/-- `Executor::evaluateFileRead`: the whole file in one call; a missing file
is the wrapped open failure.  The binary flag only affects the C++ stream
mode, not the contents read. -/
def evaluateFileRead (filename : String) (_is_binary : Bool) (s : ExecState) :
    EvalRes Value :=
  match s.fs filename with
  | some content => (.ok (.STRING content), s)
  | none =>
    (.error (.fault ("File read error: Could not open file for reading: " ++ filename)), s)

/-- `Executor::evaluateFileWrite`: append when the stored mode contains `a`,
otherwise truncate (the `w` and plain-out branches both truncate); returns
the character count written. -/
def evaluateFileWrite (filename data : String) (_is_binary : Bool)
    (mode : String) (s : ExecState) : EvalRes Value :=
  let newContent :=
    if mode.contains 'a' then
      match s.fs filename with
      | some old => old ++ data
      | none => data
    else data
  (.ok (.NUMBER ⟨data.length, 1⟩),
   { s with fs := fun n => if n = filename then some newContent else s.fs n })

/-- The statement loop shared by `Executor::execute`, `executeWith` and
`evaluateExec`. -/
def runStmts (prev : Funs) : List StmtNode → ExecState → EvalRes Unit
  | [], s => (.ok (), s)
  | st :: rest, s =>
    match prev.execStmt st s with
    | (.ok _, s₁) => runStmts prev rest s₁
    | (.error m, s₁) => (.error m, s₁)

/-- `Executor::evaluateEval`.  The in-tree tokenizer is used for the
re-tokenization.  The C++ `catch` around the parse-and-evaluate block routes
both parse failures and evaluation faults to the template mini-evaluator;
exhausted fuel is a stack overflow and is not caught. -/
def evaluateEval (prev : Funs) (args : List ExprNode) (s : ExecState) : EvalRes Value :=
  match args with
  | [] => (.error (.fault "eval() missing required argument"), s)
  | a :: _ =>
    match prev.evalExpr a s with
    | (.ok v, s₁) =>
      let expr_str := v.toString
      let direct : Option Dbl :=
        if expr_str.toList.all (fun c => c.isDigit || c = '.') then stod? expr_str
        else none
      match direct with
      | some d => (.ok (.NUMBER d), s₁)
      | none =>
        match (Parser.parseExpressionPublic (Lexer.tokenize expr_str)).1 with
        | .ok expr_node =>
          match prev.evalExpr expr_node s₁ with
          | (.ok r, s₂) => (.ok r, s₂)
          | (.error (.fault _), s₂) =>
            (.ok (parseAndEvaluateSimpleExpression s₂.vars expr_str.toList), s₂)
          | (.error .outOfFuel, s₂) => (.error .outOfFuel, s₂)
        | .error _ =>
          (.ok (parseAndEvaluateSimpleExpression s₁.vars expr_str.toList), s₁)
    | (.error m, s₁) => (.error m, s₁)

/-- `Executor::evaluateExec`: re-tokenize and re-parse as a statement
sequence (with a trailing newline ensured), execute against the current
state, wrap faults with the `exec error` tag. -/
def evaluateExec (prev : Funs) (args : List ExprNode) (s : ExecState) : EvalRes Value :=
  match args with
  | [] => (.error (.fault "exec() missing required argument"), s)
  | a :: _ =>
    match prev.evalExpr a s with
    | (.ok v, s₁) =>
      let code_str := v.toString
      let code₂ :=
        if code_str ≠ "" && code_str.toList.getLast? ≠ some '\n' then code_str ++ "\n"
        else code_str
      match runStmts prev (Parser.parse (Lexer.tokenize code₂)) s₁ with
      | (.ok _, s₂) => (.ok .NONE, s₂)
      | (.error (.fault m), s₂) => (.error (.fault ("exec error: " ++ m)), s₂)
      | (.error .outOfFuel, s₂) => (.error .outOfFuel, s₂)
    | (.error m, s₁) => (.error m, s₁)

/-- `Executor::evaluateCall`: the built-in table, then the file pseudo-method
convention for an identifier bound to a file handle, then the
undefined-function fault.  A callee that is not an identifier makes the C++
dereference a failed `dynamic_cast` (undefined behavior); it is modelled as a
fault. -/
def evaluateCall (prev : Funs) (callee : ExprNode) (args : List ExprNode)
    (s : ExecState) : EvalRes Value :=
  match callee with
  | .IdentifierExpr funcName =>
    if funcName = "str" then evaluateStr prev args s
    else if funcName = "repr" then evaluateRepr prev args s
    else if funcName = "int" then evaluateInt prev args s
    else if funcName = "float" then evaluateFloat prev args s
    else if funcName = "bool" then evaluateBool prev args s
    else if funcName = "len" then evaluateLen prev args s
    else if funcName = "input" then
      match args with
      | [] =>
        let r := fastGetString s
        (.ok (.STRING r.1), r.2)
      | a :: _ =>
        match prev.evalExpr a s with
        | (.ok p, s₁) =>
          let r := fastGetString (fastPutString p.toString s₁)
          (.ok (.STRING r.1), r.2)
        | (.error m, s₁) => (.error m, s₁)
    else if funcName = "print" then
      match evalExprList prev args s with
      | (.ok vs, s₁) =>
        (.ok .NONE, fastPutString (String.intercalate " " (vs.map Value.toString) ++ "\n") s₁)
      | (.error m, s₁) => (.error m, s₁)
    else if funcName = "open" then evaluateOpen prev args s
    else if funcName = "eval" then evaluateEval prev args s
    else if funcName = "exec" then evaluateExec prev args s
    else
      match s.vars funcName with
      | some (.FILE_OBJECT fo) =>
        match args with
        | [] => (.ok .NONE, s)
        | a :: rest =>
          match prev.evalExpr a s with
          | (.ok mv, s₂) =>
            let methodName := mv.toString
            if methodName = "read" then evaluateFileRead fo.filename fo.is_binary s₂
            else if methodName = "write" then
              match rest with
              | d :: _ =>
                match prev.evalExpr d s₂ with
                | (.ok dv, s₃) =>
                  evaluateFileWrite fo.filename dv.toString fo.is_binary fo.mode s₃
                | (.error m, s₃) => (.error m, s₃)
              | [] =>
                -- `write` without a payload fails the `size > 1` guard and
                -- falls through every branch to the final silent None
                (.ok .NONE, s₂)
            else if methodName = "close" then
              let closed := Value.FILE_OBJECT { fo with is_open := false }
              (.ok .NONE, { s₂ with vars := setVar funcName closed s₂.vars })
            else (.ok .NONE, s₂)
          | (.error m, s₂) => (.error m, s₂)
      | _ => (.error (.fault ("Function " ++ funcName ++ " is not defined")), s)
  | _ => (.error (.fault "invalid callee"), s)

/-- `Executor::executePrint`: concatenation with no separator, one newline. -/
def executePrint (prev : Funs) (expressions : List ExprNode) (s : ExecState) :
    EvalRes Unit :=
  match evalExprList prev expressions s with
  | (.ok vs, s₁) => (.ok (), fastPutString (String.join (vs.map Value.toString) ++ "\n") s₁)
  | (.error m, s₁) => (.error m, s₁)

/-- `Executor::executeAssignment`. -/
def executeAssignment (prev : Funs) (name : String) (value : ExprNode)
    (s : ExecState) : EvalRes Unit :=
  match prev.evalExpr value s with
  | (.ok v, s₁) => (.ok (), { s₁ with vars := setVar name v s₁.vars })
  | (.error m, s₁) => (.error m, s₁)

/-- `Executor::executeWith`: evaluate the context, bind the optional name,
run the body, and erase the binding — the erase sits after the body inside
the `try`, so a faulting body skips it and only the wrapped fault
propagates. -/
def executeWith (prev : Funs) (context_expr : ExprNode) (optional_vars : String)
    (body : List StmtNode) (s : ExecState) : EvalRes Unit :=
  match prev.evalExpr context_expr s with
  | (.ok cv, s₁) =>
    let s₂ :=
      if optional_vars = "" then s₁
      else { s₁ with vars := setVar optional_vars cv s₁.vars }
    match runStmts prev body s₂ with
    | (.ok _, s₃) =>
      let s₄ :=
        if optional_vars = "" then s₃
        else { s₃ with vars := eraseVar optional_vars s₃.vars }
      (.ok (), s₄)
    | (.error (.fault m), s₃) => (.error (.fault ("with statement error: " ++ m)), s₃)
    | (.error .outOfFuel, s₃) => (.error .outOfFuel, s₃)
  | (.error (.fault m), s₁) => (.error (.fault ("with statement error: " ++ m)), s₁)
  | (.error .outOfFuel, s₁) => (.error .outOfFuel, s₁)

/-- One fuel level of the evaluator: `Executor::evaluateExpression` and
`Executor::executeStatement`. -/
def execStep (prev : Funs) : Funs where
  evalExpr := fun e s =>
    match e with
    | .LiteralExpr value type => (evaluateLiteral value type, s)
    | .ListExpr elements => evaluateList prev elements s
    | .IndexExpr array index => evaluateIndex prev array index s
    | .FStringExpr tmpl => (.ok (.STRING (evaluateFString s.vars tmpl)), s)
    | .IdentifierExpr name => (.ok (evaluateIdentifier name s), s)
    | .BinaryExpr l op r => evaluateBinary prev l op r s
    | .CallExpr callee args => evaluateCall prev callee args s
  execStmt := fun st s =>
    match st with
    | .PrintStmt exprs => executePrint prev exprs s
    | .AssignStmt name v => executeAssignment prev name v s
    | .WithStmt ctx vars body => executeWith prev ctx vars body s
    | .ExprStmt e =>
      match prev.evalExpr e s with
      | (.ok v, s₁) =>
        let doPrint : Bool :=
          s₁.interactiveMode &&
            (match v with
             | .NONE => false
             | _ => true)
        if doPrint then (.ok (), fastPutString (v.toString ++ "\n") s₁)
        else (.ok (), s₁)
      | (.error m, s₁) => (.error m, s₁)

def funsZero : Funs where
  evalExpr := fun _ s => (.error .outOfFuel, s)
  execStmt := fun _ s => (.error .outOfFuel, s)

def execFuns : Nat → Funs
  | 0 => funsZero
  | f + 1 => execStep (execFuns f)

/-- `Executor::evaluateExpression`, at a given recursion budget. -/
def evaluateExpression (fuel : Nat) : ExprNode → ExecState → EvalRes Value :=
  (execFuns fuel).evalExpr

/-- `Executor::executeStatement`, at a given recursion budget. -/
def executeStatement (fuel : Nat) : StmtNode → ExecState → EvalRes Unit :=
  (execFuns fuel).execStmt

/-- `Executor::execute`. -/
def execute (fuel : Nat) (statements : List StmtNode) (s : ExecState) : EvalRes Unit :=
  runStmts (execFuns fuel) statements s

/-- A fresh session state. -/
def initState (interactive : Bool) (inputLines : List String) : ExecState :=
  { vars := fun _ => none
    interactiveMode := interactive
    output := ""
    inputLines := inputLines
    fs := fun _ => none }

end Executor

/-! ## Fixtures for the concrete claim instances -/

/-- A fresh non-interactive session. -/
def st0 : Executor.ExecState := Executor.initState false []

/-- An environment binding `x` to 2 and `y` to 3. -/
def env8sum : String → Option Value := fun n =>
  if n = "x" then some (.NUMBER ⟨2, 1⟩)
  else if n = "y" then some (.NUMBER ⟨3, 1⟩)
  else none

/-- A session whose environment binds `a` to the list [1, 2] and `b` to [3]. -/
def s9 : Executor.ExecState :=
  { st0 with vars := fun n =>
      if n = "a" then some (.LIST [.NUMBER ⟨1, 1⟩, .NUMBER ⟨2, 1⟩])
      else if n = "b" then some (.LIST [.NUMBER ⟨3, 1⟩])
      else none }

/-- A session whose environment binds the built-in name `str` to a file
handle (reachable by `str = open("f.txt", "w")`). -/
def s10 : Executor.ExecState :=
  { st0 with vars := fun n =>
      if n = "str" then some (.FILE_OBJECT ⟨"f.txt", "w", false, true⟩) else none }

/-- A session whose environment binds `fh` to a file handle. -/
def s10b : Executor.ExecState :=
  { st0 with vars := fun n =>
      if n = "fh" then some (.FILE_OBJECT ⟨"f.txt", "w", false, true⟩) else none }

/-! ## Shared helper lemmas -/

theorem lastCons (t : Token) (l : List Token)
    (h : l.getLast?.map Token.type = some .EOF_TOKEN) :
    (t :: l).getLast?.map Token.type = some .EOF_TOKEN := by
  cases l with
  | nil => simp at h
  | cons a l' => simpa [List.getLast?_cons_cons] using h

theorem lexGo_endsEOF : ∀ (fuel : Nat) (cs : List Char) (line col : Nat),
    (Lexer.lexGo fuel cs line col).getLast?.map Token.type = some .EOF_TOKEN := by
  intro fuel
  induction fuel with
  | zero => intro cs line col; simp [Lexer.lexGo, Lexer.mkEOF]
  | succ f ih =>
    intro cs line col
    rw [Lexer.lexGo.eq_def]
    cases cs with
    | nil => simp [Lexer.mkEOF]
    | cons c t =>
      simp only []
      split
      · simp [Lexer.mkEOF]
      · split_ifs
        · simp [Lexer.mkEOF]
        · split
          · exact lastCons _ _ (ih _ _ _)
          · exact ih _ _ _

theorem identChar_not_space (c : Char) (h : (c.isAlphanum || c = '_') = true) :
    isSpaceC c = false := by
  by_contra hs
  rw [Bool.not_eq_false] at hs
  simp only [isSpaceC, Bool.or_eq_true, decide_eq_true_eq] at hs
  rcases hs with ((((rfl | rfl) | rfl) | rfl) | rfl) | rfl <;> exact absurd h (by decide)

theorem filter_nonspace_of_ident (name : List Char)
    (h : name.all (fun c => c.isAlphanum || c = '_') = true) :
    name.filter (fun c => !(isSpaceC c)) = name := by
  refine List.filter_eq_self.mpr fun c hc => ?_
  have := (List.all_eq_true.mp h) c hc
  simp [identChar_not_space c this]

theorem takeWhile_ident_append (run rest : List Char)
    (h₁ : ∀ c ∈ run, isIdentChar c = true)
    (h₂ : isIdentChar (rest.headD ' ') = false) :
    (run ++ rest).takeWhile isIdentChar = run ∧
      (run ++ rest).dropWhile isIdentChar = rest := by
  induction run with
  | nil =>
    cases rest with
    | nil => simp
    | cons r t =>
      simp only [List.headD_cons] at h₂
      simp [List.takeWhile_cons, List.dropWhile_cons, h₂]
  | cons a run' ih =>
    have ha := h₁ a (by simp)
    have ih' := ih fun c hc => h₁ c (by simp [hc])
    simp [List.takeWhile_cons, List.dropWhile_cons, ha, ih'.1, ih'.2]

/-! ## The claims -/

/-- C6: for every input text `tokenize` terminates (it is a total function)
and returns a sequence whose last token is EOF; it raises no fault (its type
has no error channel); characters matching no rule — `!` not followed by `=`,
or an unrecognized symbol such as `@` — are dropped without producing a token
or an error. -/
theorem tokenize_ends_with_EOF :
    (∀ source : String,
        (Lexer.tokenize source).getLast?.map Token.type = some TokenType.EOF_TOKEN)
    ∧ Lexer.tokenize "a!b" =
        [⟨.IDENTIFIER, "a", 1, 1⟩, ⟨.IDENTIFIER, "b", 1, 3⟩, ⟨.EOF_TOKEN, "", 1, 3⟩]
    ∧ Lexer.tokenize "@" = [⟨.EOF_TOKEN, "", 1, 1⟩] :=
  ⟨fun _ => lexGo_endsEOF _ _ _ _, by decide, by decide⟩

/-- C2: the current lexer classifies a maximal alphanumeric/underscore run as
a keyword exactly when it is one of the thirteen keywords, `with` and `as`
among them; every other run is an IDENTIFIER.  The keyword table is modelled
from the spec (the current `lexer.cpp` is absent from the tree). -/
theorem getKeywordTypeCurrent_classification :
    (∀ s : String, Lexer.getKeywordTypeCurrent s = .IDENTIFIER ↔
        s ∉ (["print", "input", "if", "else", "for", "while", "def", "return",
              "True", "False", "None", "with", "as"] : List String))
    ∧ Lexer.getKeywordTypeCurrent "with" = .WITH
    ∧ Lexer.getKeywordTypeCurrent "as" = .AS
    ∧ (∀ run rest : List Char, run ≠ [] →
        (∀ c ∈ run, isIdentChar c = true) →
        isIdentChar (rest.headD ' ') = false →
        Lexer.readIdentifierCurrent (run ++ rest) =
          ((Lexer.getKeywordTypeCurrent (String.mk run), String.mk run), rest)) := by
  refine ⟨?_, by rfl, by rfl, ?_⟩
  · intro s
    constructor
    · intro h hmem
      fin_cases hmem <;> exact absurd h (by decide)
    · intro hnm
      simp only [List.mem_cons, not_or] at hnm
      obtain ⟨n1, n2, n3, n4, n5, n6, n7, n8, n9, n10, n11, n12, n13, -⟩ := hnm
      simp [Lexer.getKeywordTypeCurrent, n1, n2, n3, n4, n5, n6, n7, n8, n9, n10,
        n11, n12, n13]
  · intro run rest _ h₁ h₂
    have h := takeWhile_ident_append run rest h₁ h₂
    simp only [Lexer.readIdentifierCurrent, h.1, h.2]

theorem getKeywordTypeCurrent_classification_witness :
    Lexer.readIdentifierCurrent ("with".toList ++ [' ']) =
      ((TokenType.WITH, "with"), [' ']) := by
  have h := getKeywordTypeCurrent_classification.2.2.2 "with".toList [' ']
    (by decide) (by decide) (by decide)
  rw [h]; decide

/-- C3 counterexample: a string that is not a valid numeric literal but has a
numeric front (std::stod parses the front), so toNumber is 12, not 0. -/
theorem toNumber_string_prefix_counterexample :
    Value.toNumber (.STRING "12abc") = ⟨12, 1⟩ ∧
      Value.toNumber (.STRING "12abc") ≠ ⟨0, 1⟩ :=
  ⟨by rfl, by decide⟩

/-- C3 amended: toNumber on a String yields 0.0 whenever the string has no
parseable numeric front; it never raises (its type has no error channel). -/
theorem toNumber_string_zero_on_no_front :
    ∀ s : String, stod? s = none → Value.toNumber (.STRING s) = ⟨0, 1⟩ := by
  intro s h
  simp [Value.toNumber, h]

theorem toNumber_string_zero_witness :
    stod? "hello" = none ∧ Value.toNumber (.STRING "hello") = ⟨0, 1⟩ :=
  ⟨by decide, toNumber_string_zero_on_no_front "hello" (by decide)⟩

/-- C7: eval("2 + 3 * 4") yields Number 14 in any state (the argument has
characters besides digits and dots, so the direct numeric path is not taken:
the string is re-tokenized, re-parsed, and evaluated with multiplicative
operators binding tighter). -/
theorem eval_precedence_14 :
    (∀ s : Executor.ExecState,
        Executor.evaluateExpression 5
          (.CallExpr (.IdentifierExpr "eval") [.LiteralExpr "2 + 3 * 4" .STRING]) s =
          (.ok (.NUMBER ⟨14, 1⟩), s))
    ∧ ("2 + 3 * 4".toList.all fun c => c.isDigit || c = '.') = false :=
  ⟨fun _ => rfl, by decide⟩

/-- C1 counterexample: a with-statement whose body faults; afterwards the
as-binding is still present (lookup yields the bound value, not nothing),
contradicting the unconditional-removal claim. -/
theorem executeWith_fault_retains_binding :
    (Executor.executeStatement 6
        (.WithStmt (.LiteralExpr "5" .NUMBER) "x"
          [.ExprStmt (.IndexExpr (.ListExpr [.LiteralExpr "1" .NUMBER])
            (.LiteralExpr "9" .NUMBER))]) st0).1 =
      .error (.fault "with statement error: Index out of range")
    ∧ ((Executor.executeStatement 6
        (.WithStmt (.LiteralExpr "5" .NUMBER) "x"
          [.ExprStmt (.IndexExpr (.ListExpr [.LiteralExpr "1" .NUMBER])
            (.LiteralExpr "9" .NUMBER))]) st0).2.vars "x") = some (.NUMBER ⟨5, 1⟩) :=
  ⟨by rfl, by rfl⟩

/-- C1 amended: the binding made by an as-clause is removed when the body
completes without fault; when the body faults, the fault propagates wrapped
as a `with statement error` and the erase is skipped, so the binding
remains. -/
theorem executeWith_unbind_semantics :
    ∀ (f : Nat) (ctx : ExprNode) (name : String) (body : List StmtNode)
      (s : Executor.ExecState) (cv : Value) (s₁ : Executor.ExecState),
      name ≠ "" →
      (Executor.execFuns f).evalExpr ctx s = (.ok cv, s₁) →
      (∀ s₃, Executor.runStmts (Executor.execFuns f) body
          { s₁ with vars := Executor.setVar name cv s₁.vars } = (.ok (), s₃) →
        Executor.executeStatement (f + 1) (.WithStmt ctx name body) s =
          (.ok (), { s₃ with vars := Executor.eraseVar name s₃.vars }) ∧
        Executor.eraseVar name s₃.vars name = none) ∧
      (∀ m s₃, Executor.runStmts (Executor.execFuns f) body
          { s₁ with vars := Executor.setVar name cv s₁.vars } = (.error (.fault m), s₃) →
        Executor.executeStatement (f + 1) (.WithStmt ctx name body) s =
          (.error (.fault ("with statement error: " ++ m)), s₃)) := by
  intro f ctx name body s cv s₁ hname hctx
  constructor
  · intro s₃ hbody
    refine ⟨?_, by simp [Executor.eraseVar]⟩
    simp only [Executor.executeStatement, Executor.execFuns, Executor.execStep,
      Executor.executeWith, hctx, hname]
    simp [hbody]
  · intro m s₃ hbody
    simp only [Executor.executeStatement, Executor.execFuns, Executor.execStep,
      Executor.executeWith, hctx, hname]
    simp [hbody]

theorem executeWith_unbind_semantics_witness :
    Executor.executeStatement 2 (.WithStmt (.LiteralExpr "5" .NUMBER) "x" []) st0 =
      (.ok (), { st0 with
        vars := Executor.eraseVar "x" (Executor.setVar "x" (.NUMBER ⟨5, 1⟩) st0.vars) }) ∧
    Executor.eraseVar "x" (Executor.setVar "x" (.NUMBER ⟨5, 1⟩) st0.vars) "x" = none := by
  have h := (executeWith_unbind_semantics 1 (.LiteralExpr "5" .NUMBER) "x" [] st0
    (.NUMBER ⟨5, 1⟩) st0 (by decide) (by rfl)).1
    { st0 with vars := Executor.setVar "x" (.NUMBER ⟨5, 1⟩) st0.vars } (by rfl)
  exact h

/-- C4: index evaluation requires a List operand; the index is the toNumber
of the index value truncated to an integer; inside [0, length) the element is
returned, outside it the "Index out of range" fault is raised, and a non-List
operand raises "Indexing not supported for this type".  Concretely,
[10, 20, 30] at index 1 is 20 and at index 5 faults. -/
theorem evaluateIndex_semantics :
    (∀ (f : Nat) (a i : ExprNode) (s s₁ s₂ : Executor.ExecState)
        (xs : List Value) (iv : Value),
      (Executor.execFuns f).evalExpr a s = (.ok (.LIST xs), s₁) →
      (Executor.execFuns f).evalExpr i s₁ = (.ok iv, s₂) →
      Executor.evaluateExpression (f + 1) (.IndexExpr a i) s =
        (if 0 ≤ iv.toNumber.trunc && iv.toNumber.trunc < (xs.length : Int) then
          (.ok (xs.getD iv.toNumber.trunc.toNat Value.NONE), s₂)
        else (.error (.fault "Index out of range"), s₂)))
    ∧ (∀ (f : Nat) (a i : ExprNode) (s s₁ s₂ : Executor.ExecState)
        (v iv : Value),
      (Executor.execFuns f).evalExpr a s = (.ok v, s₁) →
      (∀ xs, v ≠ .LIST xs) →
      (Executor.execFuns f).evalExpr i s₁ = (.ok iv, s₂) →
      Executor.evaluateExpression (f + 1) (.IndexExpr a i) s =
        (.error (.fault "Indexing not supported for this type"), s₂))
    ∧ Executor.evaluateExpression 3
        (.IndexExpr (.ListExpr [.LiteralExpr "10" .NUMBER, .LiteralExpr "20" .NUMBER,
          .LiteralExpr "30" .NUMBER]) (.LiteralExpr "1" .NUMBER)) st0 =
        (.ok (.NUMBER ⟨20, 1⟩), st0)
    ∧ Executor.evaluateExpression 3
        (.IndexExpr (.ListExpr [.LiteralExpr "10" .NUMBER, .LiteralExpr "20" .NUMBER,
          .LiteralExpr "30" .NUMBER]) (.LiteralExpr "5" .NUMBER)) st0 =
        (.error (.fault "Index out of range"), st0) := by
  refine ⟨?_, ?_, by rfl, by rfl⟩
  · intro f a i s s₁ s₂ xs iv h₁ h₂
    simp only [Executor.evaluateExpression, Executor.execFuns, Executor.execStep,
      Executor.evaluateIndex, h₁, h₂]
  · intro f a i s s₁ s₂ v iv h₁ hv h₂
    cases v
    case LIST xs => exact absurd rfl (hv xs)
    all_goals
      simp only [Executor.evaluateExpression, Executor.execFuns, Executor.execStep,
        Executor.evaluateIndex, h₁, h₂]

theorem evaluateIndex_semantics_witness :
    Executor.evaluateExpression 3
      (.IndexExpr (.ListExpr [.LiteralExpr "7" .NUMBER]) (.LiteralExpr "0" .NUMBER)) st0 =
      (.ok (.NUMBER ⟨7, 1⟩), st0) := by
  have h := evaluateIndex_semantics.1 2 (.ListExpr [.LiteralExpr "7" .NUMBER])
    (.LiteralExpr "0" .NUMBER) st0 st0 st0 [.NUMBER ⟨7, 1⟩] (.NUMBER ⟨0, 1⟩)
    (by rfl) (by rfl)
  rw [h]; rfl

/-- C9: `+` on two list-bound identifiers yields a new List whose elements
are those of the first followed by those of the second, with the summed
length; the state (hence both operand bindings) is unchanged. -/
theorem list_concat_semantics :
    ∀ (f : Nat) (na nb : String) (xs ys : List Value) (s : Executor.ExecState),
      s.vars na = some (.LIST xs) → s.vars nb = some (.LIST ys) →
      Executor.evaluateExpression (f + 2)
          (.BinaryExpr (.IdentifierExpr na) .PLUS (.IdentifierExpr nb)) s =
        (.ok (.LIST (xs ++ ys)), s)
      ∧ (xs ++ ys).length = xs.length + ys.length := by
  intro f na nb xs ys s h₁ h₂
  refine ⟨?_, List.length_append xs ys⟩
  simp only [Executor.evaluateExpression, Executor.execFuns, Executor.execStep,
    Executor.evaluateBinary, Executor.evaluateIdentifier, h₁, h₂]
  simp [Value.isStr]

theorem list_concat_semantics_witness :
    Executor.evaluateExpression 2
        (.BinaryExpr (.IdentifierExpr "a") .PLUS (.IdentifierExpr "b")) s9 =
      (.ok (.LIST ([.NUMBER ⟨1, 1⟩, .NUMBER ⟨2, 1⟩] ++ [.NUMBER ⟨3, 1⟩])), s9)
    ∧ (([(.NUMBER ⟨1, 1⟩ : Value), .NUMBER ⟨2, 1⟩] ++ [(.NUMBER ⟨3, 1⟩ : Value)]).length =
        [(.NUMBER ⟨1, 1⟩ : Value), .NUMBER ⟨2, 1⟩].length + [(.NUMBER ⟨3, 1⟩ : Value)].length) :=
  list_concat_semantics 0 "a" "b" [.NUMBER ⟨1, 1⟩, .NUMBER ⟨2, 1⟩] [.NUMBER ⟨3, 1⟩] s9
    (by rfl) (by rfl)

/-- C8: the template "sum={x+y}" with x bound to 2 and y to 3 renders as
"sum=5"; and a brace region whose stripped text is a pure identifier that is
unbound in the environment renders as the literal "{name}" text (the region
renderer is `parseAndEvaluateSimpleExpression`). -/
theorem fstring_sum_and_unbound_fallback :
    Executor.evaluateFString env8sum "sum=\x7bx+y\x7d" = "sum=5"
    ∧ (∀ (vars : String → Option Value) (name : List Char),
        name.isEmpty = false →
        name.all (fun c => c.isAlphanum || c = '_') = true →
        name.all (fun c => c.isDigit || c = '.') = false →
        vars (String.mk name) = none →
        Executor.parseAndEvaluateSimpleExpression vars name =
          .STRING ("\x7b" ++ String.mk name ++ "\x7d")) := by
  refine ⟨by rfl, ?_⟩
  intro vars name h₁ h₂ h₃ h₄
  simp only [Executor.parseAndEvaluateSimpleExpression, Executor.paeGo,
    filter_nonspace_of_ident name h₂, h₁, h₂, h₃, h₄]
  simp

theorem fstring_unbound_fallback_witness :
    Executor.parseAndEvaluateSimpleExpression (fun _ => none) "zz".toList =
      .STRING ("\x7b" ++ String.mk "zz".toList ++ "\x7d") :=
  fstring_sum_and_unbound_fallback.2 (fun _ => none) "zz".toList
    (by decide) (by decide) (by decide) rfl

/-- C10 counterexample: the identifier `str` bound to a FileHandle and called
with no arguments returns the String "" (the built-in table is consulted
before the file-handle branch), not None as the claim states. -/
theorem file_dispatch_builtin_shadow_counterexample :
    Executor.evaluateExpression 2 (.CallExpr (.IdentifierExpr "str") []) s10 =
      (.ok (.STRING ""), s10)
    ∧ Value.STRING "" ≠ Value.NONE :=
  ⟨by rfl, fun h => Value.noConfusion h⟩

/-- C10 amended: for an identifier that is not a built-in name and is bound
to a FileHandle, the call never reaches the undefined-function fault: with no
arguments, or a first argument whose value stringifies to none of read,
write, close, or to write without a payload argument, it returns None with no
filesystem access (the state is exactly the one after evaluating the first
argument, and the filesystem map is untouched by the dispatch). -/
theorem file_dispatch_silent_none :
    ∀ (f : Nat) (name : String) (args : List ExprNode) (s : Executor.ExecState)
      (fo : FileObject),
      name ∉ (["str", "repr", "int", "float", "bool", "len", "input", "print",
               "open", "eval", "exec"] : List String) →
      s.vars name = some (.FILE_OBJECT fo) →
      (args = [] →
        Executor.evaluateExpression (f + 1) (.CallExpr (.IdentifierExpr name) args) s =
          (.ok .NONE, s))
      ∧ (∀ a rest v s₁, args = a :: rest →
          (Executor.execFuns f).evalExpr a s = (.ok v, s₁) →
          v.toString ∉ (["read", "write", "close"] : List String) →
          Executor.evaluateExpression (f + 1) (.CallExpr (.IdentifierExpr name) args) s =
            (.ok .NONE, s₁))
      ∧ (∀ a v s₁, args = [a] →
          (Executor.execFuns f).evalExpr a s = (.ok v, s₁) →
          v.toString = "write" →
          Executor.evaluateExpression (f + 1) (.CallExpr (.IdentifierExpr name) args) s =
            (.ok .NONE, s₁)) := by
  intro f name args s fo hname hbound
  simp only [List.mem_cons, not_or] at hname
  obtain ⟨n1, n2, n3, n4, n5, n6, n7, n8, n9, n10, n11, -⟩ := hname
  refine ⟨?_, ?_, ?_⟩
  · rintro rfl
    simp [Executor.evaluateExpression, Executor.execFuns, Executor.execStep,
      Executor.evaluateCall, n1, n2, n3, n4, n5, n6, n7, n8, n9, n10, n11, hbound]
  · rintro a rest v s₁ rfl harg hm
    simp only [List.mem_cons, not_or] at hm
    obtain ⟨m1, m2, m3, -⟩ := hm
    simp only [Executor.evaluateExpression, Executor.execFuns, Executor.execStep,
      Executor.evaluateCall]
    simp [n1, n2, n3, n4, n5, n6, n7, n8, n9, n10, n11, hbound, harg, m1, m2, m3]
  · rintro a v s₁ rfl harg hm
    simp only [Executor.evaluateExpression, Executor.execFuns, Executor.execStep,
      Executor.evaluateCall]
    simp [n1, n2, n3, n4, n5, n6, n7, n8, n9, n10, n11, hbound, harg, hm]

theorem file_dispatch_silent_none_witness :
    Executor.evaluateExpression 1 (.CallExpr (.IdentifierExpr "fh") []) s10b =
      (.ok .NONE, s10b) :=
  (file_dispatch_silent_none 0 "fh" [] s10b ⟨"f.txt", "w", false, true⟩
    (by decide) (by rfl)).1 rfl

/-- C5: when parsing a statement fails, `parse` discards tokens up to the
next NEWLINE or EOF (consuming the NEWLINE) and resumes from there — the loop
continues as if started on the remainder, so the malformed statement is
omitted and every statement parsed from the remainder still appears; on
success the statement is kept and the loop resumes likewise.  `parse` is a
total function (it cannot abort).  Concretely, a malformed `print(` line
followed by two well-formed statements yields exactly those two. -/
theorem parse_statement_recovery :
    (∀ (f : Nat) (t : Token) (rest : List Token) (e : String) (ts₁ : List Token),
        t.type ≠ .NEWLINE → t.type ≠ .EOF_TOKEN →
        Parser.parseStatementTop (t :: rest) = (.error e, ts₁) →
        Parser.parseLoop (f + 1) (t :: rest) =
          Parser.parseLoop f (Parser.skipPastNewline ts₁))
    ∧ (∀ (f : Nat) (t : Token) (rest : List Token) (st : StmtNode) (ts₁ : List Token),
        t.type ≠ .NEWLINE → t.type ≠ .EOF_TOKEN →
        Parser.parseStatementTop (t :: rest) = (.ok st, ts₁) →
        Parser.parseLoop (f + 1) (t :: rest) =
          st :: Parser.parseLoop f
            (if (Parser.peekT ts₁).type = .NEWLINE then Parser.advanceT ts₁ else ts₁))
    ∧ Parser.parse (Lexer.tokenize "print(\nx = 1\nprint(2)\n") =
        [.AssignStmt "x" (.LiteralExpr "1" .NUMBER), .PrintStmt [.LiteralExpr "2" .NUMBER]] := by
  refine ⟨?_, ?_, by rfl⟩
  · intro f t rest e ts₁ h₁ h₂ h₃
    simp only [Parser.parseLoop, if_neg h₁, if_neg h₂, h₃]
  · intro f t rest st ts₁ h₁ h₂ h₃
    simp only [Parser.parseLoop, if_neg h₁, if_neg h₂, h₃]

theorem parse_statement_recovery_witness :
    Parser.parseLoop 9
        (⟨.PRINT, "print", 1, 5⟩ :: [⟨.LPAREN, "(", 1, 5⟩, ⟨.NEWLINE, "\n", 1, 6⟩,
          ⟨.IDENTIFIER, "y", 2, 1⟩, ⟨.ASSIGN, "=", 2, 2⟩, ⟨.NUMBER, "2", 2, 5⟩,
          ⟨.NEWLINE, "\n", 2, 5⟩, ⟨.EOF_TOKEN, "", 3, 0⟩]) =
      Parser.parseLoop 8 (Parser.skipPastNewline
        [⟨.NEWLINE, "\n", 1, 6⟩, ⟨.IDENTIFIER, "y", 2, 1⟩, ⟨.ASSIGN, "=", 2, 2⟩,
         ⟨.NUMBER, "2", 2, 5⟩, ⟨.NEWLINE, "\n", 2, 5⟩, ⟨.EOF_TOKEN, "", 3, 0⟩]) :=
  parse_statement_recovery.1 8 ⟨.PRINT, "print", 1, 5⟩
    [⟨.LPAREN, "(", 1, 5⟩, ⟨.NEWLINE, "\n", 1, 6⟩, ⟨.IDENTIFIER, "y", 2, 1⟩,
     ⟨.ASSIGN, "=", 2, 2⟩, ⟨.NUMBER, "2", 2, 5⟩, ⟨.NEWLINE, "\n", 2, 5⟩,
     ⟨.EOF_TOKEN, "", 3, 0⟩]
    "Expected expression at line 1"
    [⟨.NEWLINE, "\n", 1, 6⟩, ⟨.IDENTIFIER, "y", 2, 1⟩, ⟨.ASSIGN, "=", 2, 2⟩,
     ⟨.NUMBER, "2", 2, 5⟩, ⟨.NEWLINE, "\n", 2, 5⟩, ⟨.EOF_TOKEN, "", 3, 0⟩]
    (by decide) (by decide) (by rfl)
